import Mathlib

/-!
Verification of the newsbot ingestion–dedup–publish pipeline.

Shallow embedding of the core pipeline:
  * `news_fetcher.py`: `generate_md5`, `fetch_and_store_news` (per-entry insert logic);
  * `main.py`: `strip_think`, `LLMClient.generate`, `summarize`,
    `fetch_next_article`, `mark_posted`, `post_to_twitter`, `main`.

The SQLite store is modelled as in-memory lists of rows; the external
collaborators (feed parser, LLM endpoint, Twitter client) are modelled as
oracles passed in explicitly; the clock is a `now` string parameter.
-/

namespace Newsbot

/-! ### MD5 (faithful model of Python `hashlib.md5(...).hexdigest()`)

Machine words are `Nat` reduced mod 2^32 explicitly. -/

def M32 : Nat := 4294967296

/-- Bitwise complement of a 32-bit word represented as a `Nat`. -/
def wnot (a : Nat) : Nat := 4294967295 - a % M32

/-- Rotate a 32-bit word left by `s` bits. -/
def rotl (x s : Nat) : Nat :=
  (((x % M32) <<< s) % M32) ||| ((x % M32) >>> (32 - s))

/-- The 64 MD5 sine-derived round constants `floor(2^32 * |sin(i+1)|)`. -/
def md5K : List Nat :=
  [3614090360, 3905402710, 606105819, 3250441966, 4118548399, 1200080426,
   2821735955, 4249261313, 1770035416, 2336552879, 4294925233, 2304563134,
   1804603682, 4254626195, 2792965006, 1236535329, 4129170786, 3225465664,
   643717713, 3921069994, 3593408605, 38016083, 3634488961, 3889429448,
   568446438, 3275163606, 4107603335, 1163531501, 2850285829, 4243563512,
   1735328473, 2368359562, 4294588738, 2272392833, 1839030562, 4259657740,
   2763975236, 1272893353, 4139469664, 3200236656, 681279174, 3936430074,
   3572445317, 76029189, 3654602809, 3873151461, 530742520, 3299628645,
   4096336452, 1126891415, 2878612391, 4237533241, 1700485571, 2399980690,
   4293915773, 2240044497, 1873313359, 4264355552, 2734768916, 1309151649,
   4149444226, 3174756917, 718787259, 3951481745]

/-- The 64 MD5 per-round left-rotation amounts. -/
def md5S : List Nat :=
  [7, 12, 17, 22, 7, 12, 17, 22, 7, 12, 17, 22, 7, 12, 17, 22,
   5, 9, 14, 20, 5, 9, 14, 20, 5, 9, 14, 20, 5, 9, 14, 20,
   4, 11, 16, 23, 4, 11, 16, 23, 4, 11, 16, 23, 4, 11, 16, 23,
   6, 10, 15, 21, 6, 10, 15, 21, 6, 10, 15, 21, 6, 10, 15, 21]

/-- Little-endian 8-byte rendering of the 64-bit message bit length. -/
def le64 (n : Nat) : List Nat :=
  [n % 256, n / 256 % 256, n / 65536 % 256, n / 16777216 % 256,
   n / 4294967296 % 256, n / 1099511627776 % 256,
   n / 281474976710656 % 256, n / 72057594037927936 % 256]

/-- MD5 padding: append `0x80`, zero-fill to 56 mod 64, append the
bit length little-endian. -/
def md5Pad (msg : List Nat) : List Nat :=
  msg ++ [128] ++ List.replicate ((120 - (msg.length + 1) % 64) % 64) 0 ++
    le64 (msg.length * 8 % 18446744073709551616)

/-- The `g`-th little-endian 32-bit word of a 64-byte block. -/
def leWord (bs : List Nat) (g : Nat) : Nat :=
  bs.getD (4 * g) 0 + bs.getD (4 * g + 1) 0 * 256 +
    bs.getD (4 * g + 2) 0 * 65536 + bs.getD (4 * g + 3) 0 * 16777216

/-- One of the 64 MD5 round steps on state `(a, b, c, d)`. -/
def md5Step (block : List Nat) (st : Nat × Nat × Nat × Nat) (i : Nat) :
    Nat × Nat × Nat × Nat :=
  let (a, b, c, d) := st
  let fg : Nat × Nat :=
    if i < 16 then ((b &&& c) ||| (wnot b &&& d), i)
    else if i < 32 then ((d &&& b) ||| (wnot d &&& c), (5 * i + 1) % 16)
    else if i < 48 then (b ^^^ c ^^^ d, (3 * i + 5) % 16)
    else (c ^^^ (b ||| wnot d), 7 * i % 16)
  let f := (fg.1 + a + md5K.getD i 0 + leWord block fg.2) % M32
  (d, (b + rotl f (md5S.getD i 0)) % M32, b, c)

/-- Compress one 64-byte block into the running state. -/
def md5Block (st : Nat × Nat × Nat × Nat) (block : List Nat) :
    Nat × Nat × Nat × Nat :=
  let r := (List.range 64).foldl (md5Step block) st
  ((st.1 + r.1) % M32, (st.2.1 + r.2.1) % M32,
   (st.2.2.1 + r.2.2.1) % M32, (st.2.2.2 + r.2.2.2) % M32)

/-- Fold the compression function over successive 64-byte blocks. -/
def md5Blocks : Nat × Nat × Nat × Nat → List Nat → Nat × Nat × Nat × Nat
  | st, [] => st
  | st, b :: rest => md5Blocks (md5Block st (b :: rest.take 63)) (rest.drop 63)
termination_by _ bs => bs.length
decreasing_by
  simp only [List.length_drop, List.length_cons]
  omega

/-- Lowercase hexadecimal digit. -/
def hexDigit (n : Nat) : Char :=
  if n < 10 then Char.ofNat (48 + n) else Char.ofNat (87 + n)

/-- Two lowercase hex digits of a byte. -/
def hexByte (n : Nat) : List Char := [hexDigit (n / 16 % 16), hexDigit (n % 16)]

/-- Little-endian hex rendering of one 32-bit word. -/
def wordHex (w : Nat) : List Char :=
  hexByte (w % 256) ++ hexByte (w / 256 % 256) ++ hexByte (w / 65536 % 256) ++
    hexByte (w / 16777216 % 256)

/-- `hashlib.md5(bytes).hexdigest()`: the 32-character lowercase hex digest. -/
def md5Hex (msg : List Nat) : String :=
  let r := md5Blocks (1732584193, 4023233417, 2562383102, 271733878) (md5Pad msg)
  String.mk (wordHex r.1 ++ wordHex r.2.1 ++ wordHex r.2.2.1 ++ wordHex r.2.2.2)

/-- UTF-8 bytes of one character (Python `str.encode('utf-8')`, per char). -/
def utf8Char (c : Char) : List Nat :=
  let n := c.toNat
  if n < 128 then [n]
  else if n < 2048 then [192 + n / 64, 128 + n % 64]
  else if n < 65536 then [224 + n / 4096, 128 + n / 64 % 64, 128 + n % 64]
  else [240 + n / 262144, 128 + n / 4096 % 64, 128 + n / 64 % 64, 128 + n % 64]

/-- UTF-8 bytes of a string (Python `s.encode('utf-8')`). -/
def utf8Encode (s : String) : List Nat :=
  s.data.foldr (fun c acc => utf8Char c ++ acc) []

/-- `news_fetcher.generate_md5`: MD5 hex digest of the UTF-8 bytes of the
bare concatenation `f"{title}{summary}"`. -/
def generate_md5 (title summary : String) : String :=
  md5Hex (utf8Encode (title ++ summary))

/-! ### Sanitization: `THINK_RE = re.compile(r"<think>.*?</think>", re.DOTALL)`
and `strip_think` (main.py lines 24-25 and 52-54). -/

def thinkOpen : List Char := ['<', 't', 'h', 'i', 'n', 'k', '>']

def thinkClose : List Char := ['<', '/', 't', 'h', 'i', 'n', 'k', '>']

/-- Index of the leftmost occurrence of `pat` as a contiguous sublist. -/
def findSub (pat : List Char) : List Char → Option Nat
  | [] => if pat.isEmpty then some 0 else none
  | c :: rest =>
    if pat.isPrefixOf (c :: rest) then some 0
    else (findSub pat rest).map (· + 1)

/-- `pat` occurs as a contiguous sublist of `l`. -/
def hasSub (pat l : List Char) : Bool := (findSub pat l).isSome

/-- Worker for `THINK_RE.sub("", text)`; `fuel` bounds the number of scan
steps (any `fuel ≥ l.length` suffices and yields the same result — it only
makes the recursion structural). Scan left to right; at an occurrence of
`<think>`, the non-greedy `.*?` (DOTALL) extends the match to the earliest
following `</think>` — if one exists the whole match is deleted and scanning
resumes after it (matches do not overlap), otherwise the regex fails at this
position and scanning resumes one character later. -/
def removeThinksAux : Nat → List Char → List Char
  | 0, l => l
  | _ + 1, [] => []
  | fuel + 1, c :: rest =>
    if thinkOpen.isPrefixOf (c :: rest) then
      match findSub thinkClose (rest.drop 6) with
      | some j => removeThinksAux fuel ((rest.drop 6).drop (j + 8))
      | none => c :: removeThinksAux fuel rest
    else c :: removeThinksAux fuel rest

/-- `THINK_RE.sub("", text)` on the character list. -/
def removeThinks (l : List Char) : List Char :=
  removeThinksAux l.length l

/-- Python `str.isspace` on the ASCII whitespace characters that `str.strip()`
removes (the Unicode-only whitespace code points never arise here). -/
def pyIsSpace (c : Char) : Bool :=
  c == ' ' || c == '\t' || c == '\n' || c == '\r' ||
    c == Char.ofNat 11 || c == Char.ofNat 12

/-- Python `text.strip()`: drop leading and trailing whitespace. -/
def pyStrip (s : String) : String :=
  String.mk (((s.data.dropWhile pyIsSpace).reverse.dropWhile pyIsSpace).reverse)

/-- `main.strip_think`: `THINK_RE.sub("", text).strip()`. -/
def strip_think (text : String) : String :=
  pyStrip (String.mk (removeThinks text.data))

/-! ### Data model: the SQLite store as in-memory lists of rows. -/

/-- One row of the `articles` table. -/
structure Article where
  id : Nat
  title : String
  summary : String
  link : String
  published_at : String
  md5sum : String
deriving DecidableEq, Repr

/-- The store: `articles` rows plus the `md5sum` column of the `posts` table
(the `posts` surrogate ids carry no information the pipeline reads). -/
structure DB where
  articles : List Article
  posts : List String
deriving DecidableEq, Repr

/-- A parsed feed entry; `none` fields model keys absent from the
feedparser entry dictionary. -/
structure Entry where
  title? : Option String
  summary? : Option String
  link? : Option String
  published? : Option String
deriving DecidableEq, Repr

/-- `entry.get("title", "No title available")`. -/
def entryTitle (e : Entry) : String := e.title?.getD "No title available"

/-- `entry.get("summary", "No summary available")`. -/
def entrySummary (e : Entry) : String := e.summary?.getD "No summary available"

/-- `entry.get("link", "No link available")`. -/
def entryLink (e : Entry) : String := e.link?.getD "No link available"

/-- `entry.get("published", datetime.now().isoformat())` with the clock
passed in as `now`. -/
def entryPublished (now : String) (e : Entry) : String := e.published?.getD now

/-- SQLite `INTEGER PRIMARY KEY AUTOINCREMENT` with no deletions: one more
than the largest existing id (ids start at 1). -/
def nextId (arts : List Article) : Nat :=
  arts.foldl (fun m a => max m a.id) 0 + 1

/-- The body of the per-entry loop of `news_fetcher.fetch_and_store_news`
(lines 279-302): compute the fingerprint, skip if a row with that `md5sum`
already exists, otherwise insert a new row. -/
def storeEntry (now : String) (db : DB) (e : Entry) : DB :=
  let md5sum := generate_md5 (entryTitle e) (entrySummary e)
  if db.articles.any (fun a => a.md5sum == md5sum) then db
  else
    { db with
      articles := db.articles ++
        [{ id := nextId db.articles, title := entryTitle e,
           summary := entrySummary e, link := entryLink e,
           published_at := entryPublished now e, md5sum := md5sum }] }

/-- `news_fetcher.fetch_and_store_news` over already-fetched feeds: `none`
is a feed whose parse failed (`feed.bozo`) — logged and skipped; a parsed
feed contributes its first three entries (`feed.entries[:3]`). -/
def fetch_and_store_news (now : String) (feeds : List (Option (List Entry)))
    (db : DB) : DB :=
  feeds.foldl
    (fun d feed =>
      match feed with
      | none => d
      | some entries => (entries.take 3).foldl (storeEntry now) d) db

/-! ### Publish selector and dispatcher (`main.py`). -/

/-- The article's fingerprint is not in `posts`
(`WHERE md5sum NOT IN (SELECT md5sum FROM posts)`). -/
def unposted (db : DB) (a : Article) : Bool := !(db.posts.contains a.md5sum)

/-- Accumulator step keeping the row with the least `id` seen so far. -/
def minStep (acc : Option Article) (a : Article) : Option Article :=
  match acc with
  | none => some a
  | some b => if a.id < b.id then some a else some b

/-- `main.fetch_next_article`: the eligible row with the least `id`
(`ORDER BY id LIMIT 1`), or `none` when every row is posted. -/
def fetch_next_article (db : DB) : Option Article :=
  (db.articles.filter (unposted db)).foldl minStep none

/-- `main.mark_posted`: `INSERT OR IGNORE INTO posts (md5sum)`. -/
def mark_posted (md5sum : String) (db : DB) : DB :=
  if db.posts.contains md5sum then db
  else { db with posts := db.posts ++ [md5sum] }

/-- `LLMClient.generate` with the HTTP transport as an oracle: `none` is a
`requests.RequestException` (refused connection, bad status, timeout); `some
lines` is the streamed line sequence, where each line is `some fragment` if it
parses as JSON (the fragment is `data.get("response", "")`) and `none` if it
is empty or malformed (skipped with a log, accumulation continues). -/
def llm_generate (transport : Option (List (Option String))) (strip : Bool) :
    Option String :=
  match transport with
  | none => none
  | some lines =>
    let text := String.join (lines.filterMap id)
    some (if strip then strip_think text else text)

/-- The dedented, stripped prompt f-string of `main.summarize`. -/
def mkPrompt (title summary : String) : String :=
  "You are a cybersecurity journalist writing for X (formerly Twitter).\n\n" ++
  "Write a tweet-style summary of the article that captures attention like " ++
  "a breaking news headline. It should be clear, urgent, and compelling — " ++
  "designed to stop the scroll and deliver the core story fast.\n\n" ++
  "**Constraints:**\n- Max 300 characters\n- Tone: Direct, punchy, " ++
  "news-driven\n- Style: Reads like a high-impact tweet — headline energy " ++
  "with just enough context\n- Use emojis to enhance impact\n- Do not " ++
  "include links, markdown, or any explanation — output only the tweet " ++
  "text\n\n**Input:**\n- Title: " ++ title ++ "\n- Summary: " ++ summary ++
  "\n\n**Output:**\n- Only the tweet"

/-- `result.strip("\"'")`: drop leading and trailing quote characters. -/
def stripQuotes (s : String) : String :=
  String.mk
    (((s.data.dropWhile fun c => c == '"' || c == '\'').reverse.dropWhile
      fun c => c == '"' || c == '\'').reverse)

/-- `main.summarize`: build the prompt, call the LLM (strip defaults to
true); Python `if not result` treats both `None` and the empty string as
failure; otherwise trim stray quotes and append the link after a blank
line. -/
def summarize (title summary link : String)
    (llm : String → Option (List (Option String))) : Option String :=
  let prompt := mkPrompt title summary
  match llm_generate (llm prompt) true with
  | none => none
  | some result =>
    if result.isEmpty then none
    else some (stripQuotes result ++ "\n\n" ++ link)

/-- Observable effect of `main.post_to_twitter`. -/
structure PostEffect where
  calls : List String
  errorLogged : Bool
deriving DecidableEq, Repr

/-- `main.post_to_twitter` with the gateway outcome as the oracle `sendOk`:
in debug mode the message is only logged; otherwise `create_tweet` is called
and a `tweepy.TweepyException` is caught and logged — the function returns
normally in every case. -/
def post_to_twitter (debug : Bool) (sendOk : Bool) (message : String) :
    PostEffect :=
  if debug then { calls := [], errorLogged := false }
  else { calls := [message], errorLogged := !sendOk }

/-- Observable outcome of one `main.main` run. -/
structure RunResult where
  db : DB
  calls : List String
  errorLogged : Bool
deriving DecidableEq, Repr

/-- `main.main` after config/service setup: select the next article (return
if none), summarize (warn and return on failure), dispatch, then mark.
`mark_posted` runs whenever `post_to_twitter` returns — the source calls it
unconditionally after the dispatch line. -/
def main_run (db : DB) (llm : String → Option (List (Option String)))
    (debug : Bool) (sendOk : Bool) : RunResult :=
  match fetch_next_article db with
  | none => { db := db, calls := [], errorLogged := false }
  | some art =>
    match summarize art.title art.summary art.link llm with
    | none => { db := db, calls := [], errorLogged := false }
    | some tweet =>
      let eff := post_to_twitter debug sendOk tweet
      { db := mark_posted art.md5sum db, calls := eff.calls,
        errorLogged := eff.errorLogged }

/-- One core-pipeline mutation of the store: an ingestion run, a full
publish run, or a bare `mark_posted` call. -/
inductive CoreStep : DB → DB → Prop
  | ingest (now : String) (feeds : List (Option (List Entry))) (db : DB) :
      CoreStep db (fetch_and_store_news now feeds db)
  | run (llm : String → Option (List (Option String))) (debug sendOk : Bool)
      (db : DB) : CoreStep db (main_run db llm debug sendOk).db
  | mark (md5sum : String) (db : DB) : CoreStep db (mark_posted md5sum db)

/-- Any number of core-pipeline steps. -/
def Reaches : DB → DB → Prop := Relation.ReflTransGen CoreStep

/-- `Article.md5sum` column of a store's `articles` table. -/
def fingerprints (db : DB) : List String := db.articles.map Article.md5sum

/-! ### Concrete fixtures used in counterexamples and witnesses. -/

/-- An article row with id `i` and fingerprint `f`. -/
def mkArt (i : Nat) (f : String) : Article :=
  { id := i, title := "t", summary := "s", link := "l",
    published_at := "p", md5sum := f }

/-- A store with unpublished ids 3, 1, 2 (in insertion-scrambled order). -/
def db312 : DB := { articles := [mkArt 3 "f3", mkArt 1 "f1", mkArt 2 "f2"], posts := [] }

/-- A store with one pending article. -/
def db1 : DB := { articles := [mkArt 1 "f1"], posts := [] }

/-- A store whose single article is already marked published. -/
def dbMarked : DB := { articles := [mkArt 1 "f1"], posts := ["f1"] }

/-- An LLM oracle that always streams one well-formed fragment. -/
def llmTweet : String → Option (List (Option String)) := fun _ => some [some "Tweet!"]

/-- An LLM oracle whose transport always fails. -/
def llmFail : String → Option (List (Option String)) := fun _ => none

/-- An LLM oracle whose accumulated output sanitizes to the empty string. -/
def llmAllThink : String → Option (List (Option String)) :=
  fun _ => some [some "<think>x</think>"]

/-- A feed entry with the same title and summary on every fetch. -/
def entryTS : Entry :=
  { title? := some "T", summary? := some "S", link? := some "L", published? := none }

/-- An empty store. -/
def dbEmpty : DB := { articles := [], posts := [] }

/-- A store with two pending articles. -/
def dbTwo : DB := { articles := [mkArt 1 "f1", mkArt 2 "f2"], posts := [] }

end Newsbot

namespace Newsbot

/-! ### Helper lemmas (shared) -/

theorem contains_iff_mem (l : List String) (x : String) :
    l.contains x = true ↔ x ∈ l := by
  simp [List.contains]

theorem unposted_iff (db : DB) (a : Article) :
    unposted db a = true ↔ a.md5sum ∉ db.posts := by
  simp [unposted, contains_iff_mem]

theorem foldl_minStep_some (l : List Article) (c : Article) :
    ∃ r, l.foldl minStep (some c) = some r ∧ (r = c ∨ r ∈ l) ∧ r.id ≤ c.id ∧
      ∀ b ∈ l, r.id ≤ b.id := by
  induction l generalizing c with
  | nil => exact ⟨c, rfl, Or.inl rfl, le_refl _, by simp⟩
  | cons a l ih =>
    simp only [List.foldl_cons]
    by_cases h : a.id < c.id
    · have hstep : minStep (some c) a = some a := by simp [minStep, h]
      rw [hstep]
      obtain ⟨r, hr, hmem, hle, hall⟩ := ih a
      refine ⟨r, hr, ?_, le_trans hle (le_of_lt h), ?_⟩
      · rcases hmem with rfl | hm
        · exact Or.inr (List.mem_cons_self _ _)
        · exact Or.inr (List.mem_cons_of_mem _ hm)
      · intro b hb
        rcases List.mem_cons.mp hb with rfl | hb'
        · exact hle
        · exact hall b hb'

    · have hstep : minStep (some c) a = some c := by simp [minStep, h]
      rw [hstep]
      obtain ⟨r, hr, hmem, hle, hall⟩ := ih c
      refine ⟨r, hr, ?_, hle, ?_⟩
      · rcases hmem with rfl | hm
        · exact Or.inl rfl
        · exact Or.inr (List.mem_cons_of_mem _ hm)
      · intro b hb
        rcases List.mem_cons.mp hb with rfl | hb'
        · omega
        · exact hall b hb'

theorem pickMin_none_iff (l : List Article) :
    l.foldl minStep none = none ↔ l = [] := by
  cases l with
  | nil => simp
  | cons a l =>
    simp only [List.foldl_cons]
    have : minStep none a = some a := rfl
    rw [this]
    obtain ⟨r, hr, -, -, -⟩ := foldl_minStep_some l a
    simp [hr]

theorem pickMin_mem_min (l : List Article) (a : Article)
    (h : l.foldl minStep none = some a) :
    a ∈ l ∧ ∀ b ∈ l, a.id ≤ b.id := by
  cases l with
  | nil => simp at h
  | cons c l =>
    simp only [List.foldl_cons] at h
    have hstep : minStep none c = some c := rfl
    rw [hstep] at h
    obtain ⟨r, hr, hmem, hle, hall⟩ := foldl_minStep_some l c
    rw [hr] at h
    obtain rfl : r = a := by injection h
    constructor
    · rcases hmem with rfl | hm
      · exact List.mem_cons_self _ _
      · exact List.mem_cons_of_mem _ hm
    · intro b hb
      rcases List.mem_cons.mp hb with rfl | hb'
      · exact hle
      · exact hall b hb'

theorem fetch_some_spec (db : DB) (a : Article)
    (h : fetch_next_article db = some a) :
    a ∈ db.articles ∧ a.md5sum ∉ db.posts ∧
      ∀ b ∈ db.articles, b.md5sum ∉ db.posts → a.id ≤ b.id := by
  unfold fetch_next_article at h
  obtain ⟨hmem, hmin⟩ := pickMin_mem_min _ _ h
  rw [List.mem_filter] at hmem
  refine ⟨hmem.1, (unposted_iff db a).mp hmem.2, ?_⟩
  intro b hb hbp
  exact hmin b (List.mem_filter.mpr ⟨hb, (unposted_iff db b).mpr hbp⟩)

theorem fetch_none_iff (db : DB) :
    fetch_next_article db = none ↔ ∀ b ∈ db.articles, b.md5sum ∈ db.posts := by
  unfold fetch_next_article
  rw [pickMin_none_iff, List.filter_eq_nil_iff]
  constructor
  · intro h b hb
    by_contra hbp
    exact h b hb ((unposted_iff db b).mpr hbp)
  · intro h b hb hbp
    exact absurd (h b hb) (by simpa using (unposted_iff db b).mp hbp)

theorem storeEntry_posts (now : String) (db : DB) (e : Entry) :
    (storeEntry now db e).posts = db.posts := by
  unfold storeEntry
  dsimp only
  split <;> rfl

theorem foldl_storeEntry_posts (now : String) (es : List Entry) (db : DB) :
    (es.foldl (storeEntry now) db).posts = db.posts := by
  induction es generalizing db with
  | nil => rfl
  | cons e es ih => rw [List.foldl_cons, ih, storeEntry_posts]

theorem fetch_and_store_news_posts (now : String)
    (feeds : List (Option (List Entry))) (db : DB) :
    (fetch_and_store_news now feeds db).posts = db.posts := by
  unfold fetch_and_store_news
  induction feeds generalizing db with
  | nil => rfl
  | cons f feeds ih =>
    rw [List.foldl_cons]
    cases f with
    | none => exact ih db
    | some entries => rw [ih, foldl_storeEntry_posts]

theorem mark_posted_mono (m x : String) (db : DB) (h : x ∈ db.posts) :
    x ∈ (mark_posted m db).posts := by
  unfold mark_posted
  split
  · exact h
  · exact List.mem_append_left _ h

theorem mark_posted_self (m : String) (db : DB) :
    m ∈ (mark_posted m db).posts := by
  unfold mark_posted
  split
  · exact (contains_iff_mem _ _).mp (by assumption)
  · exact List.mem_append_right _ (List.mem_singleton.mpr rfl)

theorem main_run_posts_mono (db : DB) (llm : String → Option (List (Option String)))
    (debug sendOk : Bool) (x : String) (h : x ∈ db.posts) :
    x ∈ (main_run db llm debug sendOk).db.posts := by
  unfold main_run
  cases fetch_next_article db with
  | none => exact h
  | some art =>
    dsimp only
    cases summarize art.title art.summary art.link llm with
    | none => exact h
    | some tweet => exact mark_posted_mono _ _ _ h

theorem coreStep_posts_mono {db db' : DB} (s : CoreStep db db') (x : String)
    (h : x ∈ db.posts) : x ∈ db'.posts := by
  cases s with
  | ingest now feeds db => rw [fetch_and_store_news_posts]; exact h
  | run llm debug sendOk db => exact main_run_posts_mono db llm debug sendOk x h
  | mark m db => exact mark_posted_mono m x db h

theorem reaches_posts_mono {db db' : DB} (r : Reaches db db') (x : String)
    (h : x ∈ db.posts) : x ∈ db'.posts := by
  induction r with
  | refl => exact h
  | tail _ step ih => exact coreStep_posts_mono step x ih

theorem storeEntry_idem (now now' : String) (db : DB) (e : Entry) :
    storeEntry now' (storeEntry now db e) e = storeEntry now db e := by
  unfold storeEntry
  dsimp only
  by_cases hc : (db.articles.any fun a =>
      a.md5sum == generate_md5 (entryTitle e) (entrySummary e)) = true
  · simp [hc]
  · simp [hc, List.any_append]

theorem countP_beq_eq_one_of_nodup_of_mem (l : List String) (m : String)
    (h : l.Nodup) (hm : m ∈ l) : l.countP (fun x => x == m) = 1 := by
  induction l with
  | nil => simp at hm
  | cons a l ih =>
    rw [List.nodup_cons] at h
    by_cases hax : a = m
    · subst hax
      have h0 : l.countP (fun x => x == a) = 0 := by
        rw [List.countP_eq_zero]
        intro x hx
        simp only [beq_iff_eq]
        rintro rfl
        exact h.1 hx
      simp [List.countP_cons, h0]
    · have hm' : m ∈ l := by
        rcases List.mem_cons.mp hm with h1 | h2
        · exact absurd h1.symm hax
        · exact h2
      have hne : (a == m) = false := by simp [hax]
      simp [List.countP_cons, hne, ih h.2 hm']

theorem countP_md5_eq (l : List Article) (m : String) :
    (l.countP fun a => a.md5sum == m) = ((l.map Article.md5sum).countP fun x => x == m) := by
  rw [List.countP_map]
  rfl

theorem fingerprints_nodup_storeEntry (now : String) (db : DB) (e : Entry)
    (h : (fingerprints db).Nodup) : (fingerprints (storeEntry now db e)).Nodup := by
  unfold storeEntry
  dsimp only
  by_cases hc : (db.articles.any fun a =>
      a.md5sum == generate_md5 (entryTitle e) (entrySummary e)) = true
  · simpa [hc] using h
  · simp only [hc, if_neg, Bool.false_eq_true, not_false_iff]
    unfold fingerprints at h ⊢
    dsimp only
    rw [List.map_append, List.nodup_append]
    refine ⟨h, by simp, ?_⟩
    intro x hx hx'
    simp only [List.map_cons, List.map_nil, List.mem_singleton] at hx'
    subst hx'
    obtain ⟨a, ha, hae⟩ := List.mem_map.mp hx
    exact hc (List.any_eq_true.mpr ⟨a, ha, by simp [hae]⟩)

theorem storeEntry_count_one (now : String) (db : DB) (e : Entry)
    (h : (fingerprints db).Nodup) :
    ((storeEntry now db e).articles.countP fun a =>
      a.md5sum == generate_md5 (entryTitle e) (entrySummary e)) = 1 := by
  unfold storeEntry
  dsimp only
  by_cases hc : (db.articles.any fun a =>
      a.md5sum == generate_md5 (entryTitle e) (entrySummary e)) = true
  · simp only [hc, if_pos]
    obtain ⟨a, ha, hae⟩ := List.any_eq_true.mp hc
    rw [countP_md5_eq]
    refine countP_beq_eq_one_of_nodup_of_mem _ _ h ?_
    exact List.mem_map.mpr ⟨a, ha, by simpa using hae⟩
  · simp only [hc, if_neg, Bool.false_eq_true, not_false_iff]
    rw [List.countP_append]
    have h0 : (db.articles.countP fun a =>
        a.md5sum == generate_md5 (entryTitle e) (entrySummary e)) = 0 := by
      rw [List.countP_eq_zero]
      intro a ha
      intro hae
      exact hc (List.any_eq_true.mpr ⟨a, ha, hae⟩)
    simp [h0]

theorem nodup_ids_inj {db : DB} (h : (db.articles.map Article.id).Nodup)
    {a b : Article} (ha : a ∈ db.articles) (hb : b ∈ db.articles)
    (hid : a.id = b.id) : a = b :=
  List.inj_on_of_nodup_map h ha hb hid

/-! ### Claim theorems -/

/-- C2 counterexample: the distinct pairs `("ab", "c")` and `("a", "bc")`
receive the same fingerprint with certainty, because `generate_md5` hashes
the bare concatenation `f"{title}{summary}"` — the collision is structural,
not negligible-probability. -/
theorem fingerprint_certain_collision_cex :
    (("ab", "c") : String × String) ≠ ("a", "bc") ∧
      generate_md5 "ab" "c" = generate_md5 "a" "bc" := by
  constructor
  · decide
  · have h : ("ab" ++ "c" : String) = "a" ++ "bc" := rfl
    exact congrArg (fun s => md5Hex (utf8Encode s)) h

/-- C2 amended: `generate_md5 t s` is a function of the concatenation
`t ++ s` alone, so any two pairs with equal concatenation — including
distinct pairs — always receive the same digest; distinctness of digests can
hold at most for pairs with distinct concatenations. -/
theorem fingerprint_depends_only_on_concat (t s t' s' : String)
    (h : t ++ s = t' ++ s') : generate_md5 t s = generate_md5 t' s' := by
  unfold generate_md5
  rw [h]

/-- C2 witness: the amended statement applied at `("ab", "c")` and
`("a", "bc")`. -/
theorem fingerprint_depends_only_on_concat_witness :
    ("ab" ++ "c" : String) = "a" ++ "bc" ∧
      generate_md5 "ab" "c" = generate_md5 "a" "bc" :=
  ⟨rfl, fingerprint_depends_only_on_concat "ab" "c" "a" "bc" rfl⟩

/-- C7: `strip_think` maps `"Visible<think>hidden reasoning</think> text"`
to exactly `"Visible text"`, and the result contains no residual
`<think>` or `</think>` marker substring. -/
theorem strip_think_sanitizes_example :
    strip_think "Visible<think>hidden reasoning</think> text" = "Visible text" ∧
      hasSub thinkOpen
        (strip_think "Visible<think>hidden reasoning</think> text").data = false ∧
      hasSub thinkClose
        (strip_think "Visible<think>hidden reasoning</think> text").data = false := by
  refine ⟨by decide, by decide, by decide⟩

/-- C10: on the nested input `"<think><think>x</think></think>"` the
single-pass non-greedy removal leaves the residual marker `"</think>"` in
the output of `strip_think`. -/
theorem strip_think_nested_residual :
    strip_think "<think><think>x</think></think>" = "</think>" ∧
      hasSub thinkClose (strip_think "<think><think>x</think></think>").data = true := by
  refine ⟨by decide, by decide⟩

/-- C4: the selector returns an eligible row of least id — an Item of the
store whose fingerprint is unposted, minimal among all such (and the unique
minimum when ids are distinct) — and returns `none` exactly when every row
is posted; on the store with unpublished ids 3, 1, 2 it picks id 1, then 2,
then 3 across successive mark cycles, then none. -/
theorem fetch_next_article_fifo :
    (∀ (db : DB) (a : Article), fetch_next_article db = some a →
        a ∈ db.articles ∧ a.md5sum ∉ db.posts ∧
          ∀ b ∈ db.articles, b.md5sum ∉ db.posts → a.id ≤ b.id) ∧
    (∀ (db : DB) (a b : Article), (db.articles.map Article.id).Nodup →
        fetch_next_article db = some a → b ∈ db.articles →
        b.md5sum ∉ db.posts → b.id ≤ a.id → b = a) ∧
    (∀ db : DB, fetch_next_article db = none ↔
        ∀ b ∈ db.articles, b.md5sum ∈ db.posts) ∧
    (fetch_next_article db312 = some (mkArt 1 "f1") ∧
      fetch_next_article (mark_posted "f1" db312) = some (mkArt 2 "f2") ∧
      fetch_next_article (mark_posted "f2" (mark_posted "f1" db312)) =
        some (mkArt 3 "f3") ∧
      fetch_next_article
        (mark_posted "f3" (mark_posted "f2" (mark_posted "f1" db312))) = none) := by
  refine ⟨?_, ?_, fetch_none_iff, by decide, by decide, by decide, by decide⟩
  · exact fun db a h => fetch_some_spec db a h
  · intro db a b hnodup hf hb hbp hba
    obtain ⟨ha, -, hmin⟩ := fetch_some_spec db a hf
    exact nodup_ids_inj hnodup hb ha (le_antisymm hba (hmin b hb hbp))

/-- C4 witness: the selector facts applied at the 3, 1, 2 store, where the
selected article is the one with id 1. -/
theorem fetch_next_article_fifo_witness :
    fetch_next_article db312 = some (mkArt 1 "f1") ∧
      (mkArt 1 "f1" ∈ db312.articles ∧ (mkArt 1 "f1").md5sum ∉ db312.posts ∧
        ∀ b ∈ db312.articles, b.md5sum ∉ db312.posts → (mkArt 1 "f1").id ≤ b.id) :=
  ⟨by decide, fetch_next_article_fifo.1 db312 (mkArt 1 "f1") (by decide)⟩

/-- C3: once a fingerprint `F` is recorded by `mark_posted`, no store
reachable through any number of core-pipeline steps ever has the selector
return an article with fingerprint `F` (the published set only grows); and
any selected article's fingerprint has no published mark. -/
theorem marked_never_reselected :
    (∀ (F : String) (db db' : DB), Reaches (mark_posted F db) db' →
        ∀ a : Article, fetch_next_article db' = some a → a.md5sum ≠ F) ∧
    (∀ (db : DB) (a : Article), fetch_next_article db = some a →
        a.md5sum ∉ db.posts) := by
  constructor
  · intro F db db' hr a hf heq
    have hFmem : F ∈ db'.posts := reaches_posts_mono hr F (mark_posted_self F db)
    have hnp := (fetch_some_spec db' a hf).2.1
    rw [heq] at hnp
    exact hnp hFmem
  · intro db a hf
    exact (fetch_some_spec db a hf).2.1

/-- C3 witness: after marking `"f1"` in the two-article store, the selector
returns the id-2 article, whose fingerprint differs from `"f1"`. -/
theorem marked_never_reselected_witness :
    fetch_next_article (mark_posted "f1" dbTwo) = some (mkArt 2 "f2") ∧
      (mkArt 2 "f2").md5sum ≠ "f1" :=
  ⟨by decide,
    marked_never_reselected.1 "f1" dbTwo (mark_posted "f1" dbTwo)
      Relation.ReflTransGen.refl (mkArt 2 "f2") (by decide)⟩

/-- C5: when the generation transport fails (`generate` returns `None`) for
the selected article, the run completes leaving the store unchanged — no
PublishedMark, no gateway call — and the same article is selected again. -/
theorem generation_failure_no_mark_no_call (db : DB)
    (llm : String → Option (List (Option String))) (debug sendOk : Bool)
    (art : Article) (hf : fetch_next_article db = some art)
    (hllm : llm (mkPrompt art.title art.summary) = none) :
    main_run db llm debug sendOk = { db := db, calls := [], errorLogged := false } ∧
      fetch_next_article (main_run db llm debug sendOk).db = some art := by
  have hs : summarize art.title art.summary art.link llm = none := by
    simp [summarize, llm_generate, hllm]
  have h1 : main_run db llm debug sendOk =
      { db := db, calls := [], errorLogged := false } := by
    simp only [main_run, hf, hs]
  exact ⟨h1, by rw [h1]; exact hf⟩

/-- C5 witness: the failure run applied at the one-article store with an
always-failing LLM transport. -/
theorem generation_failure_no_mark_no_call_witness :
    fetch_next_article db1 = some (mkArt 1 "f1") ∧
      llmFail (mkPrompt (mkArt 1 "f1").title (mkArt 1 "f1").summary) = none ∧
      (main_run db1 llmFail false true =
          { db := db1, calls := [], errorLogged := false } ∧
        fetch_next_article (main_run db1 llmFail false true).db =
          some (mkArt 1 "f1")) :=
  ⟨by decide, rfl,
    generation_failure_no_mark_no_call db1 llmFail false true (mkArt 1 "f1")
      (by decide) rfl⟩

/-- C9: when the transport succeeds but the accumulated, sanitized output is
the empty string, `summarize` returns `None` (Python `if not result` treats
`""` as falsy), so the run makes no gateway call and creates no mark. -/
theorem empty_output_is_generation_failure (db : DB)
    (llm : String → Option (List (Option String))) (debug sendOk : Bool)
    (art : Article) (lines : List (Option String))
    (hf : fetch_next_article db = some art)
    (hllm : llm (mkPrompt art.title art.summary) = some lines)
    (hempty : strip_think (String.join (lines.filterMap id)) = "") :
    summarize art.title art.summary art.link llm = none ∧
      main_run db llm debug sendOk =
        { db := db, calls := [], errorLogged := false } := by
  have hs : summarize art.title art.summary art.link llm = none := by
    simp [summarize, llm_generate, hllm, hempty]
    decide
  exact ⟨hs, by simp only [main_run, hf, hs]⟩

/-- C9 witness: applied at the one-article store with an LLM whose whole
output is a think block, which sanitizes to `""`. -/
theorem empty_output_is_generation_failure_witness :
    fetch_next_article db1 = some (mkArt 1 "f1") ∧
      llmAllThink (mkPrompt (mkArt 1 "f1").title (mkArt 1 "f1").summary) =
        some [some "<think>x</think>"] ∧
      strip_think (String.join (([some "<think>x</think>"] : List (Option String)).filterMap id)) = "" ∧
      (summarize (mkArt 1 "f1").title (mkArt 1 "f1").summary
          (mkArt 1 "f1").link llmAllThink = none ∧
        main_run db1 llmAllThink false true =
          { db := db1, calls := [], errorLogged := false }) :=
  ⟨by decide, rfl, by decide,
    empty_output_is_generation_failure db1 llmAllThink false true (mkArt 1 "f1")
      [some "<think>x</think>"] (by decide) rfl (by decide)⟩

/-- C8: in debug mode a run with a selected pending article makes no gateway
call yet still marks the article's fingerprint, which afterwards carries
exactly one published mark. -/
theorem debug_mode_marks_without_gateway_call (db : DB)
    (llm : String → Option (List (Option String))) (sendOk : Bool)
    (art : Article) (tweet : String)
    (hf : fetch_next_article db = some art)
    (hs : summarize art.title art.summary art.link llm = some tweet) :
    main_run db llm true sendOk =
      { db := mark_posted art.md5sum db, calls := [], errorLogged := false } ∧
      ((main_run db llm true sendOk).db.posts.countP fun x => x == art.md5sum) = 1 := by
  have hnp : art.md5sum ∉ db.posts := (fetch_some_spec db art hf).2.1
  have h1 : main_run db llm true sendOk =
      { db := mark_posted art.md5sum db, calls := [], errorLogged := false } := by
    simp only [main_run, hf, hs]
    rfl
  refine ⟨h1, ?_⟩
  rw [h1]
  have h2 : (mark_posted art.md5sum db).posts = db.posts ++ [art.md5sum] := by
    unfold mark_posted
    rw [if_neg (by simpa [contains_iff_mem] using hnp)]
  have h0 : (db.posts.countP fun x => x == art.md5sum) = 0 := by
    rw [List.countP_eq_zero]
    intro x hx
    simp only [beq_iff_eq]
    rintro rfl
    exact hnp hx
  simp [h2, List.countP_append, h0]

/-- C8 witness: the debug run applied at the one-article store. -/
theorem debug_mode_marks_without_gateway_call_witness :
    fetch_next_article db1 = some (mkArt 1 "f1") ∧
      summarize (mkArt 1 "f1").title (mkArt 1 "f1").summary
        (mkArt 1 "f1").link llmTweet = some ("Tweet!" ++ "\n\n" ++ "l") ∧
      (main_run db1 llmTweet true true =
          { db := mark_posted "f1" db1, calls := [], errorLogged := false } ∧
        ((main_run db1 llmTweet true true).db.posts.countP fun x => x == "f1") = 1) :=
  ⟨by decide, by decide,
    debug_mode_marks_without_gateway_call db1 llmTweet true (mkArt 1 "f1")
      ("Tweet!" ++ "\n\n" ++ "l") (by decide) (by decide)⟩

/-- C1 counterexample: with debug off and a failing gateway send, the run on
the one-article store logs the error but does not halt before marking — the
fingerprint `"f1"` IS recorded as published and the item is no longer
selected on the next run, contradicting the claim. -/
theorem gateway_failure_marks_anyway_cex :
    (main_run db1 llmTweet false false).errorLogged = true ∧
      "f1" ∈ (main_run db1 llmTweet false false).db.posts ∧
      fetch_next_article (main_run db1 llmTweet false false).db = none := by
  refine ⟨by decide, by decide, by decide⟩

/-- C1 amended: a gateway-level send failure outside debug mode is logged,
but `post_to_twitter` swallows the exception and returns normally, so the
run proceeds to `mark_posted`: the PublishedMark IS created for the item's
fingerprint and the item is not retried on later runs. -/
theorem gateway_failure_logs_and_marks (db : DB)
    (llm : String → Option (List (Option String))) (art : Article)
    (tweet : String) (hf : fetch_next_article db = some art)
    (hs : summarize art.title art.summary art.link llm = some tweet) :
    main_run db llm false false =
      { db := mark_posted art.md5sum db, calls := [tweet], errorLogged := true } ∧
      art.md5sum ∈ (main_run db llm false false).db.posts := by
  have h1 : main_run db llm false false =
      { db := mark_posted art.md5sum db, calls := [tweet], errorLogged := true } := by
    simp only [main_run, hf, hs]
    rfl
  exact ⟨h1, by rw [h1]; exact mark_posted_self _ _⟩

/-- C1 amended witness: applied at the one-article store with a failing
gateway. -/
theorem gateway_failure_logs_and_marks_witness :
    fetch_next_article db1 = some (mkArt 1 "f1") ∧
      summarize (mkArt 1 "f1").title (mkArt 1 "f1").summary
        (mkArt 1 "f1").link llmTweet = some ("Tweet!" ++ "\n\n" ++ "l") ∧
      (main_run db1 llmTweet false false =
          { db := mark_posted "f1" db1, calls := ["Tweet!" ++ "\n\n" ++ "l"],
            errorLogged := true } ∧
        "f1" ∈ (main_run db1 llmTweet false false).db.posts) :=
  ⟨by decide, by decide,
    gateway_failure_logs_and_marks db1 llmTweet (mkArt 1 "f1")
      ("Tweet!" ++ "\n\n" ++ "l") (by decide) (by decide)⟩

/-- C6: ingesting the same entry twice is a no-op skip — per entry and per
run — and, when fingerprints are unique beforehand, they stay unique and
exactly one Item row carries the entry's fingerprint after ingestion. -/
theorem ingestion_idempotent (db : DB) (now now' : String) (e : Entry) :
    storeEntry now' (storeEntry now db e) e = storeEntry now db e ∧
    fetch_and_store_news now' [some [e]] (fetch_and_store_news now [some [e]] db) =
      fetch_and_store_news now [some [e]] db ∧
    ((fingerprints db).Nodup →
      (fingerprints (storeEntry now db e)).Nodup ∧
      ((storeEntry now db e).articles.countP fun a =>
        a.md5sum == generate_md5 (entryTitle e) (entrySummary e)) = 1) := by
  refine ⟨storeEntry_idem now now' db e, ?_,
    fun h => ⟨fingerprints_nodup_storeEntry now db e h, storeEntry_count_one now db e h⟩⟩
  show storeEntry now' (storeEntry now db e) e = storeEntry now db e
  exact storeEntry_idem now now' db e

/-- C6 witness: applied at the empty store and the fixed entry. -/
theorem ingestion_idempotent_witness :
    (fingerprints dbEmpty).Nodup ∧
      ((fingerprints (storeEntry "n1" dbEmpty entryTS)).Nodup ∧
        ((storeEntry "n1" dbEmpty entryTS).articles.countP fun a =>
          a.md5sum == generate_md5 (entryTitle entryTS) (entrySummary entryTS)) = 1) :=
  ⟨by decide, (ingestion_idempotent dbEmpty "n1" "n2" entryTS).2.2 (by decide)⟩

end Newsbot
